import Mathlib

/-!
Verification development for the RecipeUP recipe-aggregation and
list-consolidation engine.  The definitions below are a shallow embedding of
the TypeScript request handlers and services of the repository: pure helper
functions are translated directly, stateful services become explicit state
passing, database and network effects become oracle functions passed as
arguments, and fallible handlers return `Except`-style results.
-/

namespace RecipeUp

/-! ## String helpers (JS semantics) -/

/-- JS `String.prototype.toLowerCase` restricted to per-character lowering
(the repository only ever lower-cases ASCII ingredient names and ids). -/
def lowerStr (s : String) : String :=
  String.mk (s.toList.map Char.toLower)

/-- `startsWithList pat l` : the character list `l` begins with `pat`. -/
def startsWithList : List Char → List Char → Bool
  | [], _ => true
  | _ :: _, [] => false
  | p :: ps, c :: cs => p == c && startsWithList ps cs

/-- `hasSubList pat l` : the character list `pat` occurs contiguously in `l`
(JS `String.prototype.includes`). -/
def hasSubList : List Char → List Char → Bool
  | pat, [] => startsWithList pat []
  | pat, c :: cs => startsWithList pat (c :: cs) || hasSubList pat cs

/-- `strHas s pat` : JS `s.includes(pat)`. -/
def strHas (s pat : String) : Bool :=
  hasSubList pat.toList s.toList

/-- JS `String.prototype.trim` on the character list: whitespace stripped
from both ends (implemented structurally so it evaluates by reduction). -/
def trimChars (l : List Char) : List Char :=
  ((l.dropWhile Char.isWhitespace).reverse.dropWhile Char.isWhitespace).reverse

/-- JS `s.trim()`. -/
def jsTrim (s : String) : String :=
  String.mk (trimChars s.toList)

/-- JS `x || d` on an optional string, with the JS falsiness of the empty
string: `undefined || d = d` and `"" || d = d`. -/
def jsOr (o : Option String) (d : String) : String :=
  match o with
  | none => d
  | some s => if s = "" then d else s

/-- Decidable equality for `Except` results (needed to evaluate embedded
handlers on concrete inputs). -/
instance {ε α : Type} [DecidableEq ε] [DecidableEq α] :
    DecidableEq (Except ε α) := fun x y =>
  match x, y with
  | .ok a, .ok b =>
    if h : a = b then .isTrue (by rw [h]) else .isFalse (by simp [h])
  | .error e, .error f =>
    if h : e = f then .isTrue (by rw [h]) else .isFalse (by simp [h])
  | .ok _, .error _ => .isFalse (by simp)
  | .error _, .ok _ => .isFalse (by simp)

/-! ## Grocery List Generator: the ingredient categorizer

Embeds `categorizeIngredient` from the grocery-lists route
(`POST /api/grocery-lists`), an ordered keyword match on the lower-cased
ingredient name. -/

def categorizeIngredient (name : String) : String :=
  let lowerName := lowerStr name
  if strHas lowerName "milk" || strHas lowerName "cheese" ||
     strHas lowerName "yogurt" || strHas lowerName "butter" then "dairy"
  else if strHas lowerName "chicken" || strHas lowerName "beef" ||
     strHas lowerName "pork" || strHas lowerName "fish" ||
     strHas lowerName "meat" then "meat"
  else if strHas lowerName "apple" || strHas lowerName "banana" ||
     strHas lowerName "tomato" || strHas lowerName "onion" ||
     strHas lowerName "lettuce" then "produce"
  else if strHas lowerName "bread" || strHas lowerName "rolls" ||
     strHas lowerName "bagel" then "bakery"
  else if strHas lowerName "frozen" then "frozen"
  else if strHas lowerName "juice" || strHas lowerName "soda" ||
     strHas lowerName "water" || strHas lowerName "beer" ||
     strHas lowerName "wine" then "beverages"
  else "pantry"

/-- The dairy keyword list of the spec. -/
def dairyTerms : List String := ["milk", "cheese", "yogurt", "butter"]

/-- The meat/fish keyword list of the spec. -/
def meatTerms : List String := ["chicken", "beef", "pork", "fish", "meat"]

/-- The common-produce keyword list of the spec. -/
def produceTerms : List String := ["apple", "banana", "tomato", "onion", "lettuce"]

/-- The bread/bakery keyword list of the spec. -/
def bakeryTerms : List String := ["bread", "rolls", "bagel"]

/-- The beverage keyword list of the spec. -/
def beverageTerms : List String := ["juice", "soda", "water", "beer", "wine"]

/-- `hasAnyTerm l terms` : some keyword of `terms` occurs in `l`. -/
def hasAnyTerm (l : String) (terms : List String) : Bool :=
  terms.any (fun t => strHas l t)

/-- **C4.** The categorizer applies ordered keyword matching on the
lower-cased name: dairy keywords map to `dairy`; failing those, meat/fish
terms to `meat`; then produce names to `produce`; then bakery terms to
`bakery`; then the substring `frozen` to `frozen`; then beverage terms to
`beverages`; and anything else defaults to `pantry`.  In particular
`whole milk` maps to `dairy`, `chicken breast` to `meat`, `frozen peas` to
`frozen`, and `paper towels` to `pantry`. -/
theorem categorizeIngredient_ordered_keyword_matching :
    (∀ name : String,
      (hasAnyTerm (lowerStr name) dairyTerms = true →
        categorizeIngredient name = "dairy") ∧
      (hasAnyTerm (lowerStr name) dairyTerms = false →
        hasAnyTerm (lowerStr name) meatTerms = true →
        categorizeIngredient name = "meat") ∧
      (hasAnyTerm (lowerStr name) dairyTerms = false →
        hasAnyTerm (lowerStr name) meatTerms = false →
        hasAnyTerm (lowerStr name) produceTerms = true →
        categorizeIngredient name = "produce") ∧
      (hasAnyTerm (lowerStr name) dairyTerms = false →
        hasAnyTerm (lowerStr name) meatTerms = false →
        hasAnyTerm (lowerStr name) produceTerms = false →
        hasAnyTerm (lowerStr name) bakeryTerms = true →
        categorizeIngredient name = "bakery") ∧
      (hasAnyTerm (lowerStr name) dairyTerms = false →
        hasAnyTerm (lowerStr name) meatTerms = false →
        hasAnyTerm (lowerStr name) produceTerms = false →
        hasAnyTerm (lowerStr name) bakeryTerms = false →
        strHas (lowerStr name) "frozen" = true →
        categorizeIngredient name = "frozen") ∧
      (hasAnyTerm (lowerStr name) dairyTerms = false →
        hasAnyTerm (lowerStr name) meatTerms = false →
        hasAnyTerm (lowerStr name) produceTerms = false →
        hasAnyTerm (lowerStr name) bakeryTerms = false →
        strHas (lowerStr name) "frozen" = false →
        hasAnyTerm (lowerStr name) beverageTerms = true →
        categorizeIngredient name = "beverages") ∧
      (hasAnyTerm (lowerStr name) dairyTerms = false →
        hasAnyTerm (lowerStr name) meatTerms = false →
        hasAnyTerm (lowerStr name) produceTerms = false →
        hasAnyTerm (lowerStr name) bakeryTerms = false →
        strHas (lowerStr name) "frozen" = false →
        hasAnyTerm (lowerStr name) beverageTerms = false →
        categorizeIngredient name = "pantry")) ∧
    categorizeIngredient "whole milk" = "dairy" ∧
    categorizeIngredient "chicken breast" = "meat" ∧
    categorizeIngredient "frozen peas" = "frozen" ∧
    categorizeIngredient "paper towels" = "pantry" := by
  refine ⟨fun name => ?_, by decide, by decide, by decide, by decide⟩
  simp only [hasAnyTerm, dairyTerms, meatTerms, produceTerms, bakeryTerms,
    beverageTerms, List.any_cons, List.any_nil, Bool.or_false,
    Bool.or_eq_true, Bool.or_eq_false_iff]
  refine ⟨?_, ?_, ?_, ?_, ?_, ?_, ?_⟩
  · rintro (h | h | h | h) <;> simp [categorizeIngredient, h]
  · rintro ⟨h1, h2, h3, h4⟩ (h | h | h | h | h) <;>
      simp [categorizeIngredient, h1, h2, h3, h4, h]
  · rintro ⟨h1, h2, h3, h4⟩ ⟨h5, h6, h7, h8, h9⟩ (h | h | h | h | h) <;>
      simp [categorizeIngredient, h1, h2, h3, h4, h5, h6, h7, h8, h9, h]
  · rintro ⟨h1, h2, h3, h4⟩ ⟨h5, h6, h7, h8, h9⟩ ⟨h10, h11, h12, h13, h14⟩
      (h | h | h) <;>
      simp [categorizeIngredient, h1, h2, h3, h4, h5, h6, h7, h8, h9, h10,
        h11, h12, h13, h14, h]
  · rintro ⟨h1, h2, h3, h4⟩ ⟨h5, h6, h7, h8, h9⟩ ⟨h10, h11, h12, h13, h14⟩
      ⟨h15, h16, h17⟩ h
    simp [categorizeIngredient, h1, h2, h3, h4, h5, h6, h7, h8, h9, h10,
      h11, h12, h13, h14, h15, h16, h17, h]
  · rintro ⟨h1, h2, h3, h4⟩ ⟨h5, h6, h7, h8, h9⟩ ⟨h10, h11, h12, h13, h14⟩
      ⟨h15, h16, h17⟩ h18 (h | h | h | h | h) <;>
      simp [categorizeIngredient, h1, h2, h3, h4, h5, h6, h7, h8, h9, h10,
        h11, h12, h13, h14, h15, h16, h17, h18, h]
  · rintro ⟨h1, h2, h3, h4⟩ ⟨h5, h6, h7, h8, h9⟩ ⟨h10, h11, h12, h13, h14⟩
      ⟨h15, h16, h17⟩ h18 ⟨h19, h20, h21, h22, h23⟩
    simp [categorizeIngredient, h1, h2, h3, h4, h5, h6, h7, h8, h9, h10,
      h11, h12, h13, h14, h15, h16, h17, h18, h19, h20, h21, h22, h23]

/-- Witness for C4: the dairy branch evaluated at the concrete input
`whole milk`. -/
theorem categorizeIngredient_ordered_keyword_matching_witness :
    categorizeIngredient "whole milk" = "dairy" :=
  (categorizeIngredient_ordered_keyword_matching.1 "whole milk").1 (by decide)

/-! ## Grocery List Generator: creation from a meal plan

Embeds `POST /api/grocery-lists`: membership check, meal-plan validation,
recipe-id extraction from the meal grid, and ingredient consolidation keyed
by `ingredient.name?.toLowerCase()`. -/

/-- A recipe ingredient as stored on a recipe row (optional fields mirror
possibly-absent JSON fields). -/
structure Ingredient where
  name : String
  amount : Option String
  unit : Option String
  category : Option String
  notes : Option String
deriving DecidableEq

/-- A consolidated grocery item (the shape seeded at first occurrence of a
normalized ingredient name). -/
structure GroceryItem where
  name : String
  amount : String
  unit : String
  category : String
  checked : Bool
  recipeSources : List String
  notes : String
deriving DecidableEq

/-- The grocery item seeded by the first occurrence of an ingredient name:
first-seen casing, amount, unit, category (defaulting to the keyword
categorizer), `checked = false`, source list `[recipe id]`. -/
def mkGroceryItem (rid : String) (ing : Ingredient) : GroceryItem :=
  { name := ing.name
    amount := jsOr ing.amount ""
    unit := jsOr ing.unit ""
    category := jsOr ing.category (categorizeIngredient ing.name)
    checked := false
    recipeSources := [rid]
    notes := jsOr ing.notes "" }

/-- On a repeated key, push the contributing recipe id onto the existing
item's source list (the `ingredientMap.has(key)` branch). -/
def addRecipeSource : List (String × GroceryItem) → String → String →
    List (String × GroceryItem)
  | [], _, _ => []
  | (k, it) :: rest, key, rid =>
    if k = key then
      (k, { it with recipeSources := it.recipeSources ++ [rid] }) :: rest
    else (k, it) :: addRecipeSource rest key rid

/-- `ingredientMap.has(key)` over the insertion-ordered map. -/
def hasIngKey (m : List (String × GroceryItem)) (key : String) : Bool :=
  m.any (fun p => p.1 == key)

/-- One ingredient of one recipe processed into the consolidation map.  The
key is `ingredient.name?.toLowerCase()`; a falsy (empty) key is skipped. -/
def consolidateStep (rid : String) (m : List (String × GroceryItem))
    (ing : Ingredient) : List (String × GroceryItem) :=
  let key := lowerStr ing.name
  if key = "" then m
  else if hasIngKey m key then addRecipeSource m key rid
  else m ++ [(key, mkGroceryItem rid ing)]

/-- A recipe row as returned by the batched ingredient query. -/
structure RecipeRow where
  id : String
  ingredients : List Ingredient
deriving DecidableEq

/-- The full consolidation: fold all recipes and their ingredients through
the map, then take the map's values in insertion order
(`Array.from(ingredientMap.values())`). -/
def consolidateIngredients (rs : List RecipeRow) : List GroceryItem :=
  (rs.foldl (fun m r => r.ingredients.foldl (consolidateStep r.id) m) []).map
    Prod.snd

/-- First-occurrence deduplication (JS `Set` insertion order), with an
accumulator of already-seen ids. -/
def dedupFirstAux (seen : List String) : List String → List String
  | [] => []
  | x :: xs =>
    if seen.contains x then dedupFirstAux seen xs
    else x :: dedupFirstAux (x :: seen) xs

/-- First-occurrence deduplication (JS `Set` insertion order). -/
def dedupFirst (l : List String) : List String := dedupFirstAux [] l

/-- A meal plan row: owning group plus the 7-day meal grid, each day a list
of slots optionally referencing a recipe id. -/
structure MealPlanRow where
  familyGroupId : String
  meals : List (List (Option String))
deriving DecidableEq

/-- Collect the distinct recipe ids referenced across all slots (the nested
`Object.values(...).forEach` walk into a `Set`); falsy (empty) ids are
skipped. -/
def mealPlanRecipeIds (mp : MealPlanRow) : List String :=
  dedupFirst (((mp.meals.map (fun day => day.filterMap id)).flatten).filter
    (fun r => r ≠ ""))

/-- The error outcomes of the embedded handlers, by HTTP status family. -/
inductive ApiError where
  | validationFailed (msg : String)
  | accessDenied (msg : String)
  | notFound (msg : String)
deriving DecidableEq

/-- A manually added (non-recipe) grocery list entry. -/
structure AdditionalItem where
  name : String
  category : String
  checked : Bool
  notes : Option String
deriving DecidableEq

/-- Store oracles consumed by the grocery-list creation handler. -/
structure GroceryDb where
  isMember : String → String → Bool
  mealPlan : String → Option MealPlanRow
  recipeById : String → Option (List Ingredient)

/-- The created grocery list entity. -/
structure GroceryList where
  familyGroupId : String
  mealPlanId : Option String
  name : String
  createdBy : String
  ingredients : List GroceryItem
  additionalItems : List AdditionalItem
  status : String
deriving DecidableEq

/-- `POST /api/grocery-lists`: membership check, meal-plan existence and
group check (one combined condition), then — when a meal plan is referenced
and no explicit ingredients were supplied — extraction and consolidation of
the referenced recipes' ingredients. -/
def createGroceryList (db : GroceryDb) (userId familyGroupId : String)
    (mealPlanId : Option String) (name : String)
    (ingredients : List GroceryItem) (additionalItems : List AdditionalItem) :
    Except ApiError GroceryList :=
  if ¬ db.isMember familyGroupId userId then
    .error (.accessDenied "Access denied to family group")
  else
    let planCheck : Option ApiError :=
      match mealPlanId with
      | none => none
      | some mpId =>
        match db.mealPlan mpId with
        | none => some (.validationFailed "Invalid meal plan for this family group")
        | some mp =>
          if mp.familyGroupId ≠ familyGroupId then
            some (.validationFailed "Invalid meal plan for this family group")
          else none
    match planCheck with
    | some e => .error e
    | none =>
      let finalIngredients :=
        match mealPlanId with
        | some mpId =>
          if ingredients.length = 0 then
            match db.mealPlan mpId with
            | some mp =>
              let ids := mealPlanRecipeIds mp
              if ids.length > 0 then
                let rows := ids.filterMap fun i =>
                  (db.recipeById i).map fun ings => RecipeRow.mk i ings
                if rows.length > 0 then consolidateIngredients rows
                else ingredients
              else ingredients
            | none => ingredients
          else ingredients
        | none => ingredients
      .ok { familyGroupId := familyGroupId
            mealPlanId := mealPlanId
            name := jsTrim name
            createdBy := userId
            ingredients := finalIngredients
            additionalItems := additionalItems
            status := "active" }

/-! ### Consolidation: one item per lower-cased name class -/

/-- Invariant of the consolidation map: keys are pairwise distinct and each
key is the lower-casing of its item's (first-seen) name. -/
def consKeyed (m : List (String × GroceryItem)) : Prop :=
  (m.map Prod.fst).Nodup ∧ ∀ p ∈ m, p.1 = lowerStr p.2.name

theorem addRecipeSource_map_fst (m : List (String × GroceryItem))
    (key rid : String) :
    (addRecipeSource m key rid).map Prod.fst = m.map Prod.fst := by
  induction m with
  | nil => rfl
  | cons p rest ih =>
    obtain ⟨k, it⟩ := p
    by_cases h : k = key <;> simp [addRecipeSource, h, ih]

theorem addRecipeSource_keyname (m : List (String × GroceryItem))
    (key rid : String) (h : ∀ p ∈ m, p.1 = lowerStr p.2.name) :
    ∀ p ∈ addRecipeSource m key rid, p.1 = lowerStr p.2.name := by
  induction m with
  | nil => intro p hp; simp [addRecipeSource] at hp
  | cons q rest ih =>
    obtain ⟨k, it⟩ := q
    intro p hp
    by_cases hk : k = key
    · simp only [addRecipeSource, if_pos hk] at hp
      rcases List.mem_cons.mp hp with hp | hp
      · subst hp
        simpa using h (k, it) (by simp)
      · exact h p (List.mem_cons_of_mem _ hp)
    · simp only [addRecipeSource, if_neg hk] at hp
      rcases List.mem_cons.mp hp with hp | hp
      · subst hp; exact h (k, it) (by simp)
      · exact ih (fun q hq => h q (List.mem_cons_of_mem _ hq)) p hp

theorem consolidateStep_inv (rid : String) (m : List (String × GroceryItem))
    (ing : Ingredient) (h : consKeyed m) :
    consKeyed (consolidateStep rid m ing) := by
  unfold consolidateStep
  by_cases hkey : lowerStr ing.name = ""
  · simpa [hkey] using h
  · simp only [hkey, if_false]
    by_cases hmem : hasIngKey m (lowerStr ing.name)
    · rw [if_pos hmem]
      exact ⟨by rw [addRecipeSource_map_fst]; exact h.1,
        addRecipeSource_keyname m _ rid h.2⟩
    · rw [if_neg hmem]
      have hnot : lowerStr ing.name ∉ m.map Prod.fst := by
        intro hc
        rcases List.mem_map.mp hc with ⟨p, hp, hpk⟩
        apply hmem
        simp only [hasIngKey, List.any_eq_true]
        exact ⟨p, hp, by simp [hpk]⟩
      refine ⟨?_, ?_⟩
      · rw [List.map_append]
        refine List.Nodup.append h.1 (List.nodup_singleton _) ?_
        intro x hx hx2
        simp only [List.map_cons, List.map_nil, List.mem_singleton] at hx2
        subst hx2
        exact hnot hx
      · intro p hp
        rcases List.mem_append.mp hp with hp | hp
        · exact h.2 p hp
        · simp only [List.mem_singleton] at hp
          subst hp
          rfl

theorem foldl_ingredients_inv (rid : String) (ings : List Ingredient) :
    ∀ m, consKeyed m → consKeyed (ings.foldl (consolidateStep rid) m) := by
  induction ings with
  | nil => intro m h; simpa using h
  | cons i rest ih =>
    intro m h
    simpa using ih _ (consolidateStep_inv rid m i h)

theorem foldl_recipes_inv (rs : List RecipeRow) :
    ∀ m, consKeyed m →
      consKeyed (rs.foldl
        (fun m r => r.ingredients.foldl (consolidateStep r.id) m) m) := by
  induction rs with
  | nil => intro m h; simpa using h
  | cons r rest ih =>
    intro m h
    simpa using ih _ (foldl_ingredients_inv r.id r.ingredients m h)

theorem consolidateIngredients_pairwise (rs : List RecipeRow) :
    (consolidateIngredients rs).Pairwise
      (fun a b => lowerStr a.name ≠ lowerStr b.name) := by
  have hinv : consKeyed (rs.foldl
      (fun m r => r.ingredients.foldl (consolidateStep r.id) m) []) :=
    foldl_recipes_inv rs [] (by constructor <;> simp)
  obtain ⟨hnd, hkn⟩ := hinv
  rw [consolidateIngredients, List.pairwise_map]
  have hpair : (rs.foldl
      (fun m r => r.ingredients.foldl (consolidateStep r.id) m) []).Pairwise
      (fun p q => p.1 ≠ q.1) := List.pairwise_map.mp hnd
  exact hpair.imp_of_mem (fun {p q} hp hq hne => by
    rw [hkn p hp, hkn q hq] at hne
    exact hne)

/-- Store oracle for the two-recipe whitespace-variant scenario: a meal plan
referencing recipes `R1` (ingredient `Onion`) and `R2` (ingredient
`onion `, trailing space). -/
def trimCaseDb : GroceryDb :=
  { isMember := fun _ _ => true
    mealPlan := fun i =>
      if i = "mp1" then some ⟨"g1", [[some "R1"], [some "R2"]]⟩ else none
    recipeById := fun i =>
      if i = "R1" then some [⟨"Onion", some "1", some "", none, none⟩]
      else if i = "R2" then some [⟨"onion ", some "2", some "", none, none⟩]
      else none }

/-- Store oracle for the two-recipe case-variant scenario: recipes `R1`
(ingredient `Onion`) and `R2` (ingredient `onion`, no whitespace). -/
def caseOnlyDb : GroceryDb :=
  { isMember := fun _ _ => true
    mealPlan := fun i =>
      if i = "mp1" then some ⟨"g1", [[some "R1"], [some "R2"]]⟩ else none
    recipeById := fun i =>
      if i = "R1" then some [⟨"Onion", some "1", some "", none, none⟩]
      else if i = "R2" then some [⟨"onion", some "2", some "", none, none⟩]
      else none }

/-- **C1 counterexample.** The consolidation key is the lower-cased name
only — it is not trimmed.  Two recipes contributing `Onion` and `onion `
(names in one lower-case-and-trim equivalence class, as witnessed by the
trim equation below) produce a grocery list with two items, not one. -/
theorem consolidation_not_trimmed_counterexample :
    Except.map (fun gl => gl.ingredients.length)
      (createGroceryList trimCaseDb "u1" "g1" (some "mp1") "weekly" [] []) =
      .ok 2 ∧
    jsTrim (lowerStr "Onion") = jsTrim (lowerStr "onion ") := by
  constructor
  · decide
  · decide

/-- **C1 amended.** Consolidation produces exactly one grocery item per
ingredient-name equivalence class under lower-casing alone (names are not
trimmed): the items of any generated list have pairwise distinct
lower-cased names; and for pure case variants the claim's scenario holds —
two recipes contributing `Onion` and `onion` yield a single item keeping
the first-seen casing, amount, unit and category, whose source list has
one entry per contributing recipe. -/
theorem consolidation_lowercase_only :
    (∀ rs : List RecipeRow,
      (consolidateIngredients rs).Pairwise
        (fun a b => lowerStr a.name ≠ lowerStr b.name)) ∧
    createGroceryList caseOnlyDb "u1" "g1" (some "mp1") "weekly" [] [] =
      .ok { familyGroupId := "g1"
            mealPlanId := some "mp1"
            name := "weekly"
            createdBy := "u1"
            ingredients := [{ name := "Onion", amount := "1", unit := ""
                              category := "produce", checked := false
                              recipeSources := ["R1", "R2"], notes := "" }]
            additionalItems := []
            status := "active" } := by
  exact ⟨consolidateIngredients_pairwise, by decide⟩

/-! ### Meal-plan validation outcomes (grocery-list creation) -/

/-- Store oracle with one meal plan `mpOther` owned by group `g2` and no
others; used to compare the missing-plan and wrong-group failure paths. -/
def planCheckDb : GroceryDb :=
  { isMember := fun _ _ => true
    mealPlan := fun i => if i = "mpOther" then some ⟨"g2", []⟩ else none
    recipeById := fun _ => none }

/-- **C7 counterexample.** A missing meal plan does not fail with a 404
NotFound: both the missing-plan request and the wrong-group request fail
with the identical 400 ValidationFailed error, so the two failure kinds are
not distinguished. -/
theorem mealPlanFailures_same_error_counterexample :
    createGroceryList planCheckDb "u1" "g1" (some "missing") "list" [] [] =
      .error (.validationFailed "Invalid meal plan for this family group") ∧
    createGroceryList planCheckDb "u1" "g1" (some "mpOther") "list" [] [] =
      .error (.validationFailed "Invalid meal plan for this family group") ∧
    createGroceryList planCheckDb "u1" "g1" (some "missing") "list" [] [] =
      createGroceryList planCheckDb "u1" "g1" (some "mpOther") "list" [] [] := by
  refine ⟨by decide, by decide, by decide⟩

/-- **C7 amended.** For a member of the requested group, a referenced meal
plan that does not exist and a referenced meal plan belonging to a
different group both fail with the same `ValidationFailed` error
(`Invalid meal plan for this family group`); the handler does not
distinguish the two conditions. -/
theorem mealPlan_validation_unified :
    ∀ (db : GroceryDb) (uid gid mpId name : String)
      (ings : List GroceryItem) (adds : List AdditionalItem),
      db.isMember gid uid = true →
      (db.mealPlan mpId = none ∨
        (∃ mp, db.mealPlan mpId = some mp ∧ mp.familyGroupId ≠ gid)) →
      createGroceryList db uid gid (some mpId) name ings adds =
        .error (.validationFailed "Invalid meal plan for this family group") := by
  intro db uid gid mpId name ings adds hm hbad
  unfold createGroceryList
  rw [if_neg (by simp [hm])]
  rcases hbad with hnone | ⟨mp, hmp, hne⟩
  · simp [hnone]
  · simp [hmp, hne]

/-- Witness for C7: the missing-plan path evaluated at a concrete store. -/
theorem mealPlan_validation_unified_witness :
    createGroceryList planCheckDb "u1" "g1" (some "missing") "list" [] [] =
      .error (.validationFailed "Invalid meal plan for this family group") :=
  mealPlan_validation_unified planCheckDb "u1" "g1" "missing" "list" [] []
    (by decide) (Or.inl (by decide))

/-! ## Grocery-list update (`PUT /api/grocery-lists/[id]`)

Embeds the update handler: 404 when the list does not exist, 403 when the
caller is not a member of the list's group, and otherwise an unconditional
field update.  The request schema restricts a status update to `active` or
`completed`, and setting `completed` also stamps `completedAt`. -/

/-- A stored grocery list row. -/
structure GroceryListRow where
  id : String
  familyGroupId : String
  createdBy : String
  name : String
  ingredients : List GroceryItem
  additionalItems : List AdditionalItem
  status : String
  completedAt : Option Nat
  updatedAt : Nat
deriving DecidableEq

/-- The status values accepted by the update schema
(`z.enum(['active', 'completed'])`). -/
inductive UpdStatus where
  | active
  | completed
deriving DecidableEq

/-- The stored string for an accepted status value. -/
def updStatusStr : UpdStatus → String
  | .active => "active"
  | .completed => "completed"

/-- A validated update payload (all fields optional). -/
structure GroceryListUpdate where
  name : Option String
  ingredients : Option (List GroceryItem)
  additionalItems : Option (List AdditionalItem)
  status : Option UpdStatus
deriving DecidableEq

/-- `PUT /api/grocery-lists/[id]`. -/
def putGroceryList (stored : Option GroceryListRow) (isMember : Bool)
    (upd : GroceryListUpdate) (now : Nat) : Except ApiError GroceryListRow :=
  match stored with
  | none => .error (.notFound "Grocery list not found")
  | some l =>
    if ¬ isMember then
      .error (.accessDenied "Access denied to this grocery list")
    else
      .ok { l with
        name := match upd.name with | some n => jsTrim n | none => l.name
        ingredients := upd.ingredients.getD l.ingredients
        additionalItems := upd.additionalItems.getD l.additionalItems
        status := match upd.status with
          | some s => updStatusStr s
          | none => l.status
        completedAt := match upd.status with
          | some .completed => some now
          | _ => l.completedAt
        updatedAt := now }

/-- A grocery list already in the `completed` state. -/
def completedList : GroceryListRow :=
  { id := "gl1", familyGroupId := "g1", createdBy := "u1", name := "done"
    ingredients := [{ name := "Milk", amount := "1", unit := "gal"
                      category := "dairy", checked := false
                      recipeSources := [], notes := "" }]
    additionalItems := [], status := "completed", completedAt := some 10
    updatedAt := 10 }

/-- The same list in the terminal `archived` state. -/
def archivedList : GroceryListRow :=
  { completedList with id := "gl2", status := "archived" }

/-- An update payload that toggles the single item's `checked` flag. -/
def toggleMilkUpd : GroceryListUpdate :=
  { name := none
    ingredients := some [{ name := "Milk", amount := "1", unit := "gal"
                           category := "dairy", checked := true
                           recipeSources := [], notes := "" }]
    additionalItems := none, status := none }

/-- **C8 counterexample.** Toggling an item's `checked` flag through the
update operation succeeds even when the list's status is `completed` or
`archived`: the handler never consults the stored status before mutating
items, so item mutation is not rejected outside `active`. -/
theorem itemToggle_not_gated_by_status_counterexample :
    Except.map (fun r => (r.ingredients.map (fun i => i.checked), r.status))
      (putGroceryList (some completedList) true toggleMilkUpd 99) =
      .ok ([true], "completed") ∧
    Except.map (fun r => (r.ingredients.map (fun i => i.checked), r.status))
      (putGroceryList (some archivedList) true toggleMilkUpd 99) =
      .ok ([true], "archived") := by
  exact ⟨by decide, by decide⟩

/-- **C8 amended.** For an existing list and a member caller, the update
operation succeeds and replaces the supplied item list regardless of the
list's current status (`active`, `completed` or `archived` alike — item
mutation is not gated on status); a status update can only be `active` or
`completed` (the schema excludes `archived`), and moving to `completed`
sets the completion timestamp to the request time. -/
theorem groceryListUpdate_ignores_status :
    ∀ (l : GroceryListRow) (upd : GroceryListUpdate) (now : Nat),
      Except.isOk (putGroceryList (some l) true upd now) = true ∧
      (∀ ings, upd.ingredients = some ings →
        Except.map (fun r => r.ingredients)
          (putGroceryList (some l) true upd now) = .ok ings) ∧
      (upd.status = some .completed →
        Except.map (fun r => (r.status, r.completedAt))
          (putGroceryList (some l) true upd now) =
          .ok ("completed", some now)) := by
  intro l upd now
  refine ⟨by simp [putGroceryList, Except.isOk, Except.toBool], ?_, ?_⟩
  · intro ings h
    simp [putGroceryList, Except.map, h]
  · intro h
    simp [putGroceryList, Except.map, h, updStatusStr]

/-- Witness for C8: the amended update behavior evaluated on the concrete
completed list and checked-flag toggle. -/
theorem groceryListUpdate_ignores_status_witness :
    Except.map (fun r => r.ingredients)
      (putGroceryList (some completedList) true toggleMilkUpd 99) =
      .ok [{ name := "Milk", amount := "1", unit := "gal"
             category := "dairy", checked := true
             recipeSources := [], notes := "" }] :=
  (groceryListUpdate_ignores_status completedList toggleMilkUpd 99).2.1 _ rfl

/-! ## Favorite toggle (`POST /api/recipes/[id]/favorite/toggle`)

Embeds the toggle handler over the favorites relation: an existence check
on the (user, recipe) pair, then either a delete of the matching rows or an
insert of one new row.  The store schema additionally carries a uniqueness
constraint on (user, recipe) (`unique_user_recipe_favorite`). -/

/-- A row of the favorites relation (the fields the toggle consults). -/
structure FavRow where
  userId : String
  recipeId : String
deriving DecidableEq

/-- The row filter used by both the existence check and the delete
(`eq(recipeId) and eq(userId)`). -/
def favMatches (uid rid : String) (r : FavRow) : Bool :=
  r.recipeId == rid && r.userId == uid

/-- The toggle handler: returns the new store and the reported
`isFavorited` flag. -/
def toggleFavorite (store : List FavRow) (uid rid : String) :
    List FavRow × Bool :=
  if store.any (favMatches uid rid) then
    (store.filter (fun r => !(favMatches uid rid r)), false)
  else
    (store ++ [⟨uid, rid⟩], true)

/-- Number of favorite rows for a (user, recipe) pair. -/
def countPair (store : List FavRow) (uid rid : String) : Nat :=
  (store.filter (favMatches uid rid)).length

/-- The per-pair uniqueness constraint of the favorites relation. -/
def PairUnique (store : List FavRow) : Prop :=
  ∀ uid rid, countPair store uid rid ≤ 1

/-- A sequence of toggles, threaded through the store. -/
def toggleSeq (store : List FavRow) (ops : List (String × String)) :
    List FavRow :=
  ops.foldl (fun s op => (toggleFavorite s op.1 op.2).1) store

theorem favMatches_self (uid rid : String) :
    favMatches uid rid ⟨uid, rid⟩ = true := by
  simp [favMatches]

theorem favMatches_ne_pair (uid rid uid2 rid2 : String) (r : FavRow)
    (h : (uid2, rid2) ≠ (uid, rid)) :
    (favMatches uid2 rid2 r && !(favMatches uid rid r)) =
      favMatches uid2 rid2 r := by
  by_cases hq : favMatches uid2 rid2 r = true
  · have hp : favMatches uid rid r = false := by
      by_contra hc
      simp only [Bool.not_eq_false] at hc
      simp only [favMatches, Bool.and_eq_true, beq_iff_eq] at hq hc
      refine absurd ?_ h
      rw [hq.2.symm.trans hc.2, hq.1.symm.trans hc.1]
    simp [hq, hp]
  · simp only [Bool.not_eq_true] at hq
    simp [hq]

theorem toggleFavorite_absent (store : List FavRow) (uid rid : String)
    (h : countPair store uid rid = 0) :
    toggleFavorite store uid rid = (store ++ [⟨uid, rid⟩], true) := by
  have hfil : store.filter (favMatches uid rid) = [] :=
    List.length_eq_zero.mp h
  have hany : store.any (favMatches uid rid) = false := by
    simp only [List.any_eq_false]
    intro x hx hpx
    have : x ∈ store.filter (favMatches uid rid) :=
      List.mem_filter.mpr ⟨hx, hpx⟩
    simp [hfil] at this
  rw [toggleFavorite, if_neg (by simp [hany])]

theorem countPair_toggle_absent (store : List FavRow) (uid rid : String)
    (h : countPair store uid rid = 0) :
    countPair (toggleFavorite store uid rid).1 uid rid = 1 := by
  rw [toggleFavorite_absent store uid rid h]
  simp [countPair, List.filter_append, List.length_eq_zero.mp h,
    favMatches_self]

theorem toggleFavorite_present (store : List FavRow) (uid rid : String)
    (h : 0 < countPair store uid rid) :
    toggleFavorite store uid rid =
      (store.filter (fun r => !(favMatches uid rid r)), false) := by
  have hne : store.filter (favMatches uid rid) ≠ [] := by
    intro hc
    rw [countPair, hc] at h
    simp at h
  obtain ⟨x, hx⟩ := List.exists_mem_of_ne_nil _ hne
  have hany : store.any (favMatches uid rid) = true :=
    List.any_eq_true.mpr ⟨x, (List.mem_filter.mp hx).1,
      (List.mem_filter.mp hx).2⟩
  rw [toggleFavorite, if_pos hany]

theorem countPair_toggle_present (store : List FavRow) (uid rid : String)
    (h : 0 < countPair store uid rid) :
    countPair (toggleFavorite store uid rid).1 uid rid = 0 := by
  rw [toggleFavorite_present store uid rid h]
  simp only [countPair, List.filter_filter]
  have : (store.filter
      (fun r => favMatches uid rid r && !(favMatches uid rid r))) = [] := by
    rw [List.filter_eq_nil_iff]
    intro a _
    cases hpa : favMatches uid rid a <;> simp [hpa]
  rw [this]
  rfl

theorem countPair_toggle_other (store : List FavRow)
    (uid rid uid2 rid2 : String) (h : (uid2, rid2) ≠ (uid, rid)) :
    countPair (toggleFavorite store uid rid).1 uid2 rid2 =
      countPair store uid2 rid2 := by
  have hrow : favMatches uid2 rid2 ⟨uid, rid⟩ = false := by
    have := favMatches_ne_pair uid rid uid2 rid2 ⟨uid, rid⟩ h
    rw [favMatches_self] at this
    simpa using this.symm
  rw [toggleFavorite]
  by_cases hany : store.any (favMatches uid rid) = true
  · rw [if_pos hany]
    simp only [countPair, List.filter_filter]
    congr 1
    exact List.filter_congr fun a _ => favMatches_ne_pair uid rid uid2 rid2 a h
  · rw [if_neg hany]
    simp [countPair, List.filter_append, hrow]

theorem PairUnique_toggle (store : List FavRow) (uid rid : String)
    (h : PairUnique store) : PairUnique (toggleFavorite store uid rid).1 := by
  intro u r
  by_cases hp : (u, r) = (uid, rid)
  · obtain ⟨hu, hr⟩ := Prod.mk.injEq .. ▸ hp
    subst hu; subst hr
    rcases Nat.eq_zero_or_pos (countPair store u r) with h0 | h0
    · rw [countPair_toggle_absent store u r h0]
    · rw [countPair_toggle_present store u r h0]
      exact Nat.zero_le 1
  · rw [countPair_toggle_other store uid rid u r hp]
    exact h u r

theorem PairUnique_toggleSeq (ops : List (String × String)) :
    ∀ store, PairUnique store → PairUnique (toggleSeq store ops) := by
  induction ops with
  | nil => intro store h; simpa [toggleSeq] using h
  | cons op rest ih =>
    intro store h
    simpa [toggleSeq] using
      ih _ (PairUnique_toggle store op.1 op.2 h)

/-- **C5.** The favorite toggle inverts the presence of the (user, recipe)
relation: toggling when absent appends exactly one row (reporting
`isFavorited = true`) and leaves the pair with count 1; toggling when
present deletes the matching rows (reporting `isFavorited = false`),
leaving the pair absent; other pairs are never affected; favoriting then
unfavoriting the same pair leaves the relation absent; and any sequence of
toggles preserves the per-pair uniqueness constraint, so no sequence of
toggles ever produces two rows for one pair. -/
theorem favoriteToggle_inverts_presence :
    (∀ (store : List FavRow) (uid rid : String),
      countPair store uid rid = 0 →
        toggleFavorite store uid rid = (store ++ [⟨uid, rid⟩], true) ∧
        countPair (toggleFavorite store uid rid).1 uid rid = 1) ∧
    (∀ (store : List FavRow) (uid rid : String),
      0 < countPair store uid rid →
        (toggleFavorite store uid rid).2 = false ∧
        countPair (toggleFavorite store uid rid).1 uid rid = 0) ∧
    (∀ (store : List FavRow) (uid rid uid2 rid2 : String),
      (uid2, rid2) ≠ (uid, rid) →
        countPair (toggleFavorite store uid rid).1 uid2 rid2 =
          countPair store uid2 rid2) ∧
    (∀ (store : List FavRow) (uid rid : String),
      countPair store uid rid = 0 →
        countPair (toggleSeq store [(uid, rid), (uid, rid)]) uid rid = 0) ∧
    (∀ (store : List FavRow) (ops : List (String × String)),
      PairUnique store → PairUnique (toggleSeq store ops)) := by
  refine ⟨?_, ?_, ?_, ?_, fun store ops h => PairUnique_toggleSeq ops store h⟩
  · intro store uid rid h
    exact ⟨toggleFavorite_absent store uid rid h,
      countPair_toggle_absent store uid rid h⟩
  · intro store uid rid h
    refine ⟨?_, countPair_toggle_present store uid rid h⟩
    rw [toggleFavorite_present store uid rid h]
  · intro store uid rid uid2 rid2 h
    exact countPair_toggle_other store uid rid uid2 rid2 h
  · intro store uid rid h
    have h1 : countPair (toggleFavorite store uid rid).1 uid rid = 1 :=
      countPair_toggle_absent store uid rid h
    have h2 : countPair (toggleFavorite (toggleFavorite store uid rid).1
        uid rid).1 uid rid = 0 :=
      countPair_toggle_present _ uid rid (by rw [h1]; exact Nat.one_pos)
    simpa [toggleSeq] using h2

/-- Witness for C5: favoriting then unfavoriting from the empty store
leaves the pair absent. -/
theorem favoriteToggle_inverts_presence_witness :
    countPair (toggleSeq [] [("u1", "r1"), ("u1", "r1")]) "u1" "r1" = 0 :=
  favoriteToggle_inverts_presence.2.2.2.1 [] "u1" "r1" (by decide)

/-! ## External Content Gateway: rate budget

Embeds `SpoonacularService.checkRateLimit` and the budget-relevant shell of
`makeRequest`: the budget check precedes the fetch, a window reset applies
when strictly more than 24 hours have passed since the last reset, an
exhausted quota throws before any network request, and the counter is
incremented after a successful response.  The network outcome is an oracle
argument; times are milliseconds. -/

/-- The process-scoped budget state (`requestCount`, `lastResetTime`). -/
structure BudgetState where
  requestCount : Nat
  lastResetTime : Nat
deriving DecidableEq

/-- `dailyLimit = 150` (free tier). -/
def dailyLimit : Nat := 150

/-- The reset window: 24 hours in milliseconds. -/
def resetWindowMs : Nat := 24 * 60 * 60 * 1000

/-- Outcome of the (oracle) network fetch, when one is made. -/
inductive NetOutcome where
  | success
  | status429
  | httpError (status : Nat)
  | transportError
deriving DecidableEq

/-- The errors thrown by `makeRequest`. -/
inductive SpoonError where
  | dailyLimitExceeded
  | rateLimitExceeded
  | apiRequestFailed (status : Nat)
  | transportFailed
deriving DecidableEq

/-- `checkRateLimit`: reset the counter when the window has strictly
elapsed, then fail when the (possibly reset) counter has reached the
quota. -/
def checkRateLimit (st : BudgetState) (now : Nat) :
    BudgetState × Option SpoonError :=
  let st1 := if resetWindowMs < now - st.lastResetTime then
    { requestCount := 0, lastResetTime := now } else st
  if dailyLimit ≤ st1.requestCount then (st1, some .dailyLimitExceeded)
  else (st1, none)

/-- `makeRequest`: budget check first (failing fast with no network
attempt), then the fetch; a success increments the counter.  The returned
`Bool` records whether a network request was attempted. -/
def makeRequest (st : BudgetState) (now : Nat) (net : NetOutcome) :
    BudgetState × Except SpoonError Unit × Bool :=
  match checkRateLimit st now with
  | (st1, some e) => (st1, .error e, false)
  | (st1, none) =>
    match net with
    | .success =>
      ({ st1 with requestCount := st1.requestCount + 1 }, .ok (), true)
    | .status429 => (st1, .error .rateLimitExceeded, true)
    | .httpError s => (st1, .error (.apiRequestFailed s), true)
    | .transportError => (st1, .error .transportFailed, true)

/-- `n` consecutive calls whose network outcome is a success, all issued at
time `now`; also reports whether every call succeeded. -/
def runSuccessCalls (st : BudgetState) (now : Nat) : Nat → BudgetState × Bool
  | 0 => (st, true)
  | n + 1 =>
    let step := makeRequest st now .success
    let rest := runSuccessCalls step.1 now n
    (rest.1, (match step.2.1 with | .ok _ => true | .error _ => false) &&
      rest.2)

theorem makeRequest_reset_success (st : BudgetState) (now : Nat)
    (h : resetWindowMs < now - st.lastResetTime) :
    makeRequest st now .success =
      ({ requestCount := 1, lastResetTime := now }, .ok (), true) := by
  simp [makeRequest, checkRateLimit, if_pos h, dailyLimit]

theorem makeRequest_quota (st : BudgetState) (now : Nat) (net : NetOutcome)
    (hwin : ¬ resetWindowMs < now - st.lastResetTime)
    (hq : dailyLimit ≤ st.requestCount) :
    makeRequest st now net = (st, .error .dailyLimitExceeded, false) := by
  cases net <;>
    simp [makeRequest, checkRateLimit, if_neg hwin, hq]

theorem makeRequest_increment (st : BudgetState) (now : Nat)
    (hwin : ¬ resetWindowMs < now - st.lastResetTime)
    (hlt : st.requestCount < dailyLimit) :
    makeRequest st now .success =
      ({ st with requestCount := st.requestCount + 1 }, .ok (), true) := by
  simp [makeRequest, checkRateLimit, if_neg hwin, Nat.not_le.mpr hlt]

theorem runSuccessCalls_within (now : Nat) :
    ∀ (k : Nat) (st : BudgetState),
      ¬ resetWindowMs < now - st.lastResetTime →
      st.requestCount + k ≤ dailyLimit →
      runSuccessCalls st now k =
        ({ st with requestCount := st.requestCount + k }, true) := by
  intro k
  induction k with
  | zero => intro st _ _; simp [runSuccessCalls]
  | succ n ih =>
    intro st hwin hk
    have hstep := makeRequest_increment st now hwin (by omega)
    have hrest := ih { st with requestCount := st.requestCount + 1 }
      (by simpa using hwin) (by simp; omega)
    simp only [runSuccessCalls, hstep, hrest]
    simp
    omega

/-- **C2.** A budget check precedes every provider call: when the 24-hour
window has elapsed the counter and window reset (so a success leaves the
counter at 1); when the counter has reached the quota of 150 within the
window, the call fails with the rate-limited error and no network request
is attempted, with the state unchanged; every successful call increments
the counter by one.  Consequently, from a fresh window, 150 calls with
successful network outcomes all succeed, the 151st call fails fast without
a network attempt, and after the window elapses the next call succeeds
leaving the counter at 1. -/
theorem gateway_budget_enforcement :
    (∀ (st : BudgetState) (now : Nat),
      resetWindowMs < now - st.lastResetTime →
        makeRequest st now .success =
          ({ requestCount := 1, lastResetTime := now }, .ok (), true)) ∧
    (∀ (st : BudgetState) (now : Nat) (net : NetOutcome),
      ¬ resetWindowMs < now - st.lastResetTime →
      dailyLimit ≤ st.requestCount →
        makeRequest st now net = (st, .error .dailyLimitExceeded, false)) ∧
    (∀ (st : BudgetState) (now : Nat),
      ¬ resetWindowMs < now - st.lastResetTime →
      st.requestCount < dailyLimit →
        makeRequest st now .success =
          ({ st with requestCount := st.requestCount + 1 }, .ok (), true)) ∧
    runSuccessCalls ⟨0, 0⟩ 0 dailyLimit = (⟨150, 0⟩, true) ∧
    makeRequest ⟨150, 0⟩ 0 .success =
      (⟨150, 0⟩, .error .dailyLimitExceeded, false) ∧
    makeRequest ⟨150, 0⟩ (resetWindowMs + 1) .success =
      ({ requestCount := 1, lastResetTime := resetWindowMs + 1 },
        .ok (), true) := by
  refine ⟨makeRequest_reset_success, makeRequest_quota, makeRequest_increment,
    ?_, ?_, ?_⟩
  · have := runSuccessCalls_within 0 dailyLimit ⟨0, 0⟩ (by decide) (by decide)
    simpa [dailyLimit] using this
  · exact makeRequest_quota ⟨150, 0⟩ 0 .success (by decide) (by decide)
  · exact makeRequest_reset_success ⟨150, 0⟩ (resetWindowMs + 1) (by decide)

/-- Witness for C2: the quota branch at the concrete exhausted state. -/
theorem gateway_budget_enforcement_witness :
    makeRequest ⟨150, 0⟩ 5 .status429 =
      (⟨150, 0⟩, .error .dailyLimitExceeded, false) :=
  gateway_budget_enforcement.2.1 ⟨150, 0⟩ 5 .status429
    (by decide) (by decide)

/-! ## Source-Unified Search (`GET /api/recipes/search`, `source = all`)

Embeds `searchAllSources`: the page-size split into a capped local share
and an external remainder, the conditional provider query with a default
query term, the in-place Fisher–Yates shuffle
(`j = Math.floor(Math.random() * (i + 1))`, modelled by a draw oracle),
and the truncation to the requested page size.  `searchSpoonacularRecipes`
catches provider errors and returns an error response whose body has no
`recipes` field, which the combiner reads back as an empty list. -/

/-- The JS destructuring swap `[a[i], a[j]] = [a[j], a[i]]` on a list;
out-of-range indices leave the list unchanged. -/
def listSwap {α : Type} (l : List α) (i j : Nat) : List α :=
  match l[i]?, l[j]? with
  | some a, some b => (l.set i b).set j a
  | _, _ => l

theorem count_set_add {α : Type} [BEq α] (l : List α) (i : Nat) (b : α)
    (h : i < l.length) (x : α) :
    (l.set i b).count x + [l[i]].count x = l.count x + [b].count x := by
  have hl : l = l.take i ++ l[i] :: l.drop (i + 1) := by
    conv_lhs => rw [← List.take_append_drop i l]
    rw [List.drop_eq_getElem_cons h]
  have h1 : (l.set i b).count x =
      (l.take i).count x + [b].count x + (l.drop (i + 1)).count x := by
    rw [List.set_eq_take_cons_drop b h]
    simp only [List.count_append, List.count_cons, List.count_nil]
    omega
  have h2 : l.count x =
      (l.take i).count x + [l[i]].count x + (l.drop (i + 1)).count x := by
    conv_lhs => rw [hl]
    simp only [List.count_append, List.count_cons, List.count_nil]
    omega
  omega

theorem listSwap_perm {α : Type} (l : List α) (i j : Nat) :
    (listSwap l i j).Perm l := by
  unfold listSwap
  split
  · next a b hi hj =>
    obtain ⟨hil, hia⟩ := List.getElem?_eq_some.mp hi
    obtain ⟨hjl, hjb⟩ := List.getElem?_eq_some.mp hj
    letI : DecidableEq α := Classical.decEq α
    rw [List.perm_iff_count]
    intro x
    have hjl2 : j < (l.set i b).length := by simpa using hjl
    have h1 := count_set_add l i b hil x
    have h2 := count_set_add (l.set i b) j a hjl2 x
    have hsetj : (l.set i b)[j] = b := by
      by_cases hij : i = j
      · subst hij
        simp [List.getElem_set_self]
      · rw [List.getElem_set_ne hij]
        exact hjb
    rw [hsetj] at h2
    rw [hia] at h1
    omega
  · exact List.Perm.refl _

/-- The shuffle loop `for (let i = n - 1; i > 0; i--)`; `draw i` models
`Math.floor(Math.random() * (i + 1))`, a uniform pick from `0..i`. -/
def fyLoop {α : Type} (draw : Nat → Nat) : List α → Nat → List α
  | l, 0 => l
  | l, i + 1 => fyLoop draw (listSwap l (i + 1) (draw (i + 1))) i

/-- The full Fisher–Yates shuffle starting at index `length - 1`. -/
def fyShuffle {α : Type} (l : List α) (draw : Nat → Nat) : List α :=
  fyLoop draw l (l.length - 1)

theorem fyLoop_perm {α : Type} (draw : Nat → Nat) :
    ∀ (i : Nat) (l : List α), (fyLoop draw l i).Perm l := by
  intro i
  induction i with
  | zero => intro l; exact List.Perm.refl _
  | succ n ih =>
    intro l
    exact (ih (listSwap l (n + 1) (draw (n + 1)))).trans
      (listSwap_perm l (n + 1) (draw (n + 1)))

theorem fyShuffle_perm {α : Type} (l : List α) (draw : Nat → Nat) :
    (fyShuffle l draw).Perm l :=
  fyLoop_perm draw (l.length - 1) l

/-- A unified search result item (the projection of the response shape the
claims inspect). -/
structure URecipe where
  id : String
  title : String
  sourceType : String
deriving DecidableEq

/-- A provider-native search result item (projected). -/
structure ExtRecipe where
  id : Nat
  title : String
deriving DecidableEq

/-- The transformation of a provider search hit into the unified shape
(`id: spoon_<id>`, `sourceType: spoonacular`). -/
def transformSpoonSearchItem (r : ExtRecipe) : URecipe :=
  { id := "spoon_" ++ toString r.id
    title := r.title
    sourceType := "spoonacular" }

/-- The response of the `searchSpoonacularRecipes` helper: HTTP 200 with
transformed recipes, or — when the provider call throws — a caught error
turned into an HTTP 500 body with no `recipes` field. -/
structure SpoonSearchResponse where
  status : Nat
  recipes : Option (List URecipe)
deriving DecidableEq

def searchSpoonacularRecipes
    (gw : String → Nat → Except SpoonError (List ExtRecipe))
    (query : String) (limit : Nat) : SpoonSearchResponse :=
  match gw query limit with
  | .ok rs => ⟨200, some (rs.map transformSpoonSearchItem)⟩
  | .error _ => ⟨500, none⟩

/-- The mixed-mode search response, with the intermediate concatenation and
the list of provider calls made recorded as observations. -/
structure AllSourcesResult where
  status : Nat
  recipes : List URecipe
  total : Nat
  localCount : Nat
  spoonacularCount : Nat
  combined : List URecipe
  extCalls : List (String × Nat)
deriving DecidableEq

def searchAllSources (localStore : Nat → List URecipe)
    (gw : String → Nat → Except SpoonError (List ExtRecipe))
    (query : Option String) (limit : Nat) (draw : Nat → Nat) :
    AllSourcesResult :=
  let localLimit := min 6 limit
  let spoonacularLimit := limit - localLimit
  let localResults := localStore localLimit
  let ext : List URecipe × List (String × Nat) :=
    if 0 < spoonacularLimit then
      let q := jsOr query "popular"
      let resp := searchSpoonacularRecipes gw q spoonacularLimit
      (resp.recipes.getD [], [(q, spoonacularLimit)])
    else ([], [])
  let allResults := localResults ++ ext.1
  let shuffled := fyShuffle allResults draw
  { status := 200
    recipes := shuffled.take limit
    total := allResults.length
    localCount := localResults.length
    spoonacularCount := ext.1.length
    combined := allResults
    extCalls := ext.2 }

/-- **C6.** In mixed-mode search the local share is `min(6, L)` and the
external share is the remainder: the provider is queried exactly once with
the remainder when it is positive (i.e. when `L > 6`) and not at all
otherwise, with the query term defaulting to `popular` when the caller
supplied none; the local and external result sets are concatenated, the
concatenation is shuffled by Fisher–Yates (a permutation for every draw
sequence), and the output is the shuffle truncated to at most `L` items. -/
theorem unified_search_mixed_mode :
    ∀ (localStore : Nat → List URecipe)
      (gw : String → Nat → Except SpoonError (List ExtRecipe))
      (query : Option String) (limit : Nat) (draw : Nat → Nat),
      (searchAllSources localStore gw query limit draw).extCalls =
        (if 6 < limit then [(jsOr query "popular", limit - 6)] else []) ∧
      (searchAllSources localStore gw query limit draw).combined =
        localStore (min 6 limit) ++
          (if 6 < limit then
            (searchSpoonacularRecipes gw (jsOr query "popular")
              (limit - 6)).recipes.getD []
          else []) ∧
      (∃ m : List URecipe,
        List.Perm m (searchAllSources localStore gw query limit draw).combined ∧
        (searchAllSources localStore gw query limit draw).recipes =
          m.take limit) ∧
      (searchAllSources localStore gw query limit draw).recipes.length ≤
        limit := by
  intro localStore gw query limit draw
  refine ⟨?_, ?_,
    ⟨fyShuffle (searchAllSources localStore gw query limit draw).combined draw,
      fyShuffle_perm _ _, rfl⟩, ?_⟩
  · by_cases hlim : 6 < limit
    · have hmin : min 6 limit = 6 := Nat.min_eq_left (Nat.le_of_lt hlim)
      have hpos : 0 < limit - 6 := by omega
      simp [searchAllSources, hmin, hpos, hlim]
    · have hmin : min 6 limit = limit := Nat.min_eq_right (by omega)
      simp [searchAllSources, hmin, hlim]
  · by_cases hlim : 6 < limit
    · have hmin : min 6 limit = 6 := Nat.min_eq_left (Nat.le_of_lt hlim)
      have hpos : 0 < limit - 6 := by omega
      simp [searchAllSources, hmin, hpos, hlim]
    · have hmin : min 6 limit = limit := Nat.min_eq_right (by omega)
      simp [searchAllSources, hmin, hlim]
  · calc (searchAllSources localStore gw query limit draw).recipes.length
        = min limit (fyShuffle
            (searchAllSources localStore gw query limit draw).combined
            draw).length := by
          simp [searchAllSources, List.length_take]
      _ ≤ limit := Nat.min_le_left _ _

/-- **C10.** When every provider search fails (rate limit, non-2xx, or
transport error), mixed-mode search still succeeds: the caught provider
error becomes an empty external contribution, the combined list is the
local result set alone, and the response is a 200 whose items are a
truncated permutation of the local results — no request-level error is
surfaced. -/
theorem mixed_search_external_failure_isolated :
    ∀ (localStore : Nat → List URecipe)
      (gw : String → Nat → Except SpoonError (List ExtRecipe))
      (query : Option String) (limit : Nat) (draw : Nat → Nat),
      (∀ q n, ∃ e, gw q n = .error e) →
      (searchAllSources localStore gw query limit draw).status = 200 ∧
      (searchAllSources localStore gw query limit draw).spoonacularCount =
        0 ∧
      (searchAllSources localStore gw query limit draw).combined =
        localStore (min 6 limit) ∧
      (∃ m : List URecipe, List.Perm m (localStore (min 6 limit)) ∧
        (searchAllSources localStore gw query limit draw).recipes =
          m.take limit) := by
  intro localStore gw query limit draw hfail
  have hresp : ∀ q n, searchSpoonacularRecipes gw q n = ⟨500, none⟩ := by
    intro q n
    obtain ⟨e, he⟩ := hfail q n
    simp [searchSpoonacularRecipes, he]
  have hcomb :
      (searchAllSources localStore gw query limit draw).combined =
        localStore (min 6 limit) := by
    by_cases hpos : 0 < limit - min 6 limit
    · simp [searchAllSources, hpos, hresp]
    · simp [searchAllSources, hpos]
  refine ⟨rfl, ?_, hcomb, ?_⟩
  · by_cases hpos : 0 < limit - min 6 limit
    · simp [searchAllSources, hpos, hresp]
    · simp [searchAllSources, hpos]
  · refine ⟨fyShuffle
      (searchAllSources localStore gw query limit draw).combined draw,
      ?_, rfl⟩
    rw [hcomb] at *
    exact hcomb ▸ fyShuffle_perm _ _

/-- An always-failing provider oracle. -/
def failGw : String → Nat → Except SpoonError (List ExtRecipe) :=
  fun _ _ => .error .transportFailed

/-- A one-recipe local store oracle. -/
def oneLocal : Nat → List URecipe :=
  fun _ => [⟨"loc1", "Pasta", "user_created"⟩]

/-- Witness for C10: the failing-provider case evaluated at a concrete
store, query and page size. -/
theorem mixed_search_external_failure_isolated_witness :
    (searchAllSources oneLocal failGw none 12 (fun _ => 0)).combined =
      oneLocal (min 6 12) :=
  (mixed_search_external_failure_isolated oneLocal failGw none 12
    (fun _ => 0) (fun _ _ => ⟨.transportFailed, rfl⟩)).2.2.1

/-! ## Normalization helpers shared by the collection and recipe views -/

/-- Drop characters up to and including the first `>`, if any. -/
def dropThroughGt : List Char → Option (List Char)
  | [] => none
  | c :: cs => if c = '>' then some cs else dropThroughGt cs

/-- The global regex replace `<[^>]*>` → empty string, written with a fuel
argument so it evaluates by reduction; every step consumes at least one
character, so fuel equal to the input length computes the full
replacement (an unmatched `<` with no later `>` is kept as-is, as the
regex leaves it). -/
def stripTagsF : Nat → List Char → List Char
  | 0, l => l
  | _ + 1, [] => []
  | fuel + 1, c :: cs =>
    if c = '<' then
      match dropThroughGt cs with
      | some rest => stripTagsF fuel rest
      | none => c :: stripTagsF fuel cs
    else c :: stripTagsF fuel cs

/-- `stripHtml`: remove markup, then trim. -/
def stripHtml (s : String) : String :=
  jsTrim (String.mk (stripTagsF s.toList.length s.toList))

/-- The replace of the trailing `\s+\S*` match (the last whitespace run
and the word following it), when the text contains any whitespace. -/
def dropTrailingWord (l : List Char) : List Char :=
  let r := l.reverse.dropWhile (fun c => !c.isWhitespace)
  if r.isEmpty then l
  else (r.dropWhile Char.isWhitespace).reverse

/-- `truncateText`: texts within the limit pass through; longer texts are
cut at the limit, stripped of the last partial word, and suffixed with an
ellipsis. -/
def truncateText (text : String) (maxLength : Nat) : String :=
  if text.length ≤ maxLength then text
  else String.mk (dropTrailingWord (text.toList.take maxLength)) ++ "..."

/-- The external-identity test `/^\d+$/.test(id)`: non-empty and all
digits. -/
def isNumericId (s : String) : Bool :=
  !s.isEmpty && s.toList.all Char.isDigit

/-! ## Collection Assembler (`GET /api/recipes/my-collection`)

Embeds the collection view: owned published recipes, favorite ids
partitioned into external (numeric) and local (non-numeric, not owned)
targets, a batched local-favorite load, a bounded sequential external
fetch loop (capped at 5, per-item failures caught and dropped), then a
merge, a stable sort by timestamp descending, and offset/limit
pagination. -/

/-- A locally stored recipe row (the columns the collection view reads). -/
structure LocalRecipe where
  id : String
  userId : String
  title : String
  description : Option String
  summary : Option String
  imageUrl : Option String
  readyInMinutes : Option Nat
  healthScore : Option Nat
  sourceType : String
  updatedAt : Nat
deriving DecidableEq

/-- JS `x || d` on an optional number (`0` is falsy). -/
def jsOrNat (o : Option Nat) (d : Nat) : Nat :=
  match o with
  | none => d
  | some n => if n = 0 then d else n

/-- An assembled collection item (render-safe defaults applied). -/
structure CollectionItem where
  id : String
  title : String
  description : String
  summary : String
  imageUrl : String
  readyInMinutes : Nat
  healthScore : Nat
  sourceType : String
  isFavorited : Bool
  sortTime : Nat
deriving DecidableEq

/-- The transformation applied to owned recipes and to local favorites:
default blank fields, `isFavorited = true`. -/
def toCollectionItem (r : LocalRecipe) : CollectionItem :=
  { id := r.id
    title := r.title
    description := jsOr r.description ""
    summary := jsOr r.summary (jsOr r.description "")
    imageUrl := jsOr r.imageUrl ""
    readyInMinutes := jsOrNat r.readyInMinutes 0
    healthScore := jsOrNat r.healthScore 0
    sourceType := r.sourceType
    isFavorited := true
    sortTime := r.updatedAt }

/-- A provider recipe as returned by `getRecipeInformation` (the fields
the transforms read). -/
structure SpoonInfo where
  id : Nat
  title : String
  summary : String
  image : String
  readyInMinutes : Nat
  healthScore : Nat
deriving DecidableEq

/-- The transformation of a fetched external favorite into a collection
item (`createdAt`/`updatedAt` stamped with the request time). -/
def transformSpoonFavorite (now : Nat) (r : SpoonInfo) : CollectionItem :=
  { id := toString r.id
    title := r.title
    description := stripHtml r.summary
    summary := truncateText (stripHtml r.summary) 200
    imageUrl := r.image
    readyInMinutes := r.readyInMinutes
    healthScore := r.healthScore
    sourceType := "spoonacular"
    isFavorited := true
    sortTime := now }

/-- The bounded sequential external-favorites loop
(`for (let i = 0; i < maxSpoonacularFetch; i++)`): at most `k` ids are
attempted, one at a time in order; a per-item failure is caught and the
item dropped. -/
def fetchSpoonFavorites (extFetch : String → Except SpoonError SpoonInfo) :
    List String → Nat → List SpoonInfo
  | _, 0 => []
  | [], _ + 1 => []
  | i :: rest, k + 1 =>
    match extFetch i with
    | .ok r => r :: fetchSpoonFavorites extFetch rest k
    | .error _ => fetchSpoonFavorites extFetch rest k

/-- The collection response, with the combined pre-pagination list and the
attempted external ids recorded as observations. -/
structure CollectionResponse where
  recipes : List CollectionItem
  total : Nat
  ownedCount : Nat
  favoritedCount : Nat
  allItems : List CollectionItem
  attemptedExternal : List String
deriving DecidableEq

def myCollection (owned : List LocalRecipe) (favIds : List String)
    (localFavStore : List String → List LocalRecipe)
    (extFetch : String → Except SpoonError SpoonInfo)
    (now limit offset : Nat) : CollectionResponse :=
  let uItems := owned.map toCollectionItem
  let spoonacularFavoriteIds := favIds.filter (fun i => isNumericId i)
  let localFavoriteIds := favIds.filter
    (fun i => !isNumericId i && !(owned.any (fun r => r.id == i)))
  let lItems := (localFavStore localFavoriteIds).map toCollectionItem
  let maxSpoonacularFetch := min spoonacularFavoriteIds.length 5
  let sItems :=
    (fetchSpoonFavorites extFetch spoonacularFavoriteIds
      maxSpoonacularFetch).map (transformSpoonFavorite now)
  let allRecipes := uItems ++ lItems ++ sItems
  let sorted := allRecipes.mergeSort (fun a b => Nat.ble b.sortTime a.sortTime)
  { recipes := (sorted.drop offset).take limit
    total := allRecipes.length
    ownedCount := uItems.length
    favoritedCount := lItems.length + sItems.length
    allItems := sorted
    attemptedExternal := spoonacularFavoriteIds.take maxSpoonacularFetch }

theorem fetchSpoonFavorites_eq_filterMap
    (extFetch : String → Except SpoonError SpoonInfo) :
    ∀ (ids : List String) (k : Nat),
      fetchSpoonFavorites extFetch ids k =
        (ids.take k).filterMap (fun i => (extFetch i).toOption) := by
  intro ids
  induction ids with
  | nil => intro k; cases k <;> simp [fetchSpoonFavorites]
  | cons i rest ih =>
    intro k
    cases k with
    | zero => simp [fetchSpoonFavorites]
    | succ n =>
      cases hf : extFetch i <;>
        simp [fetchSpoonFavorites, hf, Except.toOption, ih n]

/-- **C3.** For every collection view: at most 5 external favorites are
attempted against the Gateway (the first `min(count, 5)` numeric favorite
ids, one at a time in a bounded sequential loop); a per-item fetch failure
is caught and only that item is dropped; and the assembled collection is a
permutation of all owned published recipes, all local favorites, and every
successfully fetched external favorite — so the request returns the owned
recipes plus the successful favorites with no top-level error. -/
theorem collection_bounded_isolated_fetch :
    ∀ (owned : List LocalRecipe) (favIds : List String)
      (localFavStore : List String → List LocalRecipe)
      (extFetch : String → Except SpoonError SpoonInfo)
      (now limit offset : Nat),
      (myCollection owned favIds localFavStore extFetch now limit
          offset).attemptedExternal =
        (favIds.filter (fun i => isNumericId i)).take
          (min (favIds.filter (fun i => isNumericId i)).length 5) ∧
      (myCollection owned favIds localFavStore extFetch now limit
          offset).attemptedExternal.length ≤ 5 ∧
      List.Perm
        (myCollection owned favIds localFavStore extFetch now limit
          offset).allItems
        (owned.map toCollectionItem ++
          (localFavStore (favIds.filter
            (fun i => !isNumericId i &&
              !(owned.any (fun r => r.id == i))))).map toCollectionItem ++
          (((favIds.filter (fun i => isNumericId i)).take
              (min (favIds.filter (fun i => isNumericId i)).length
                5)).filterMap
            (fun i => (extFetch i).toOption)).map
            (transformSpoonFavorite now)) ∧
      (∀ r ∈ owned, toCollectionItem r ∈
        (myCollection owned favIds localFavStore extFetch now limit
          offset).allItems) ∧
      (myCollection owned favIds localFavStore extFetch now limit
          offset).ownedCount = owned.length := by
  intro owned favIds localFavStore extFetch now limit offset
  have hperm : List.Perm
      (myCollection owned favIds localFavStore extFetch now limit
        offset).allItems
      (owned.map toCollectionItem ++
        (localFavStore (favIds.filter
          (fun i => !isNumericId i &&
            !(owned.any (fun r => r.id == i))))).map toCollectionItem ++
        (((favIds.filter (fun i => isNumericId i)).take
            (min (favIds.filter (fun i => isNumericId i)).length
              5)).filterMap
          (fun i => (extFetch i).toOption)).map
          (transformSpoonFavorite now)) := by
    simp only [myCollection]
    rw [fetchSpoonFavorites_eq_filterMap]
    exact List.mergeSort_perm _ _
  refine ⟨rfl, ?_, hperm, ?_, ?_⟩
  · simp only [myCollection, List.length_take]
    omega
  · intro r hr
    refine hperm.mem_iff.mpr ?_
    exact List.mem_append_left _
      (List.mem_append_left _ (List.mem_map_of_mem _ hr))
  · simp [myCollection]

/-- An external fetch oracle that fails on id `103` and succeeds on every
other id. -/
def flakyFetch : String → Except SpoonError SpoonInfo :=
  fun i =>
    if i = "103" then .error .transportFailed
    else .ok ⟨0, "External Dish", "<b>Tasty</b>", "img.png", 15, 42⟩

/-- A single owned published recipe. -/
def ownedBread : LocalRecipe :=
  ⟨"own1", "u1", "Bread", none, none, none, none, none, "user_created", 50⟩

/-- Five external favorite ids, the third of which will fail. -/
def fiveFavIds : List String := ["101", "102", "103", "104", "105"]

/-- Witness for C3: with five external favorites and one simulated
upstream failure, the owned recipe is still in the assembled collection. -/
theorem collection_bounded_isolated_fetch_witness :
    toCollectionItem ownedBread ∈
      (myCollection [ownedBread] fiveFavIds (fun _ => []) flakyFetch 7 20
        0).allItems :=
  (collection_bounded_isolated_fetch [ownedBread] fiveFavIds (fun _ => [])
    flakyFetch 7 20 0).2.2.2.1 ownedBread (by decide)

/-! ## Recipe detail, edit and delete (`/api/recipes/[id]`)

Embeds the external-origin paths of the `[id]` route: a numeric id marks
an external (provider) recipe; `GET` resolves it through the Gateway into
a unified view whose owning-user reference is null, and `PUT`/`DELETE`
reject it up front with a 403 access error before touching the store. -/

/-- The unified single-recipe view (the identity, ownership and
presentation fields the invariant concerns). -/
structure RecipeView where
  id : String
  title : String
  description : String
  summary : String
  userId : Option String
  familyGroupId : Option String
  sourceType : String
  spoonacularId : Nat
  visibility : String
  status : String
  isFavorited : Bool
deriving DecidableEq

/-- The `getSpoonacularRecipe` transform: a provider recipe rendered as a
unified view with `userId: null` and `familyGroupId: null`. -/
def spoonRecipeView (id : String) (r : SpoonInfo) (favorited : Bool) :
    RecipeView :=
  { id := id
    title := r.title
    description := stripHtml r.summary
    summary := truncateText (stripHtml r.summary) 200
    userId := none
    familyGroupId := none
    sourceType := "spoonacular"
    spoonacularId := r.id
    visibility := "public"
    status := "published"
    isFavorited := favorited }

/-- The error responses of the external-recipe GET path (429 when the
thrown message names the provider rate limit, 404 when the provider
request failed, 500 otherwise). -/
inductive RecipeGetError where
  | rateLimited
  | notFoundUpstream
  | upstreamFailed
deriving DecidableEq

/-- `getSpoonacularRecipe`: fetch through the Gateway and transform;
errors are mapped by the message-matching of the handler (`Rate limit`
from the 429 throw → 429; `API request failed` → 404; the daily-quota and
transport messages match neither → 500). -/
def getSpoonacularRecipe (extFetch : String → Except SpoonError SpoonInfo)
    (id : String) (favorited : Bool) : Except RecipeGetError RecipeView :=
  match extFetch id with
  | .ok r => .ok (spoonRecipeView id r favorited)
  | .error .rateLimitExceeded => .error .rateLimited
  | .error (.apiRequestFailed _) => .error .notFoundUpstream
  | .error .dailyLimitExceeded => .error .upstreamFailed
  | .error .transportFailed => .error .upstreamFailed

/-- A stored local recipe row (the columns the update path touches). -/
structure StoredRecipe where
  id : String
  userId : String
  title : String
  prepTimeMinutes : Option Nat
  cookTimeMinutes : Option Nat
  readyInMinutes : Option Nat
  updatedAt : Nat
deriving DecidableEq

/-- A validated recipe-update payload (the timing-relevant projection). -/
structure RecipeUpdate where
  title : Option String
  prepTimeMinutes : Option Nat
  cookTimeMinutes : Option Nat
deriving DecidableEq

/-- `PUT /api/recipes/[id]`: numeric ids are rejected up front; otherwise
the row owned by the caller is updated (ready time recomputed from the
supplied timing fields). -/
def putRecipe (store : List StoredRecipe) (uid id : String)
    (body : RecipeUpdate) (now : Nat) :
    List StoredRecipe × Except ApiError StoredRecipe :=
  if isNumericId id then
    (store, .error (.accessDenied "Cannot edit external recipes"))
  else
    match store.find? (fun r => r.id == id && r.userId == uid) with
    | none => (store, .error (.notFound "Recipe not found or access denied"))
    | some r =>
      let readyInMinutes :=
        match body.prepTimeMinutes, body.cookTimeMinutes with
        | some p, some c => some (p + c)
        | _, _ =>
          match body.cookTimeMinutes with
          | some c => some c
          | none =>
            match body.prepTimeMinutes with
            | some p => some p
            | none => r.readyInMinutes
      let r2 := { r with
        title := body.title.getD r.title
        prepTimeMinutes := match body.prepTimeMinutes with
          | some p => some p
          | none => r.prepTimeMinutes
        cookTimeMinutes := match body.cookTimeMinutes with
          | some c => some c
          | none => r.cookTimeMinutes
        readyInMinutes := readyInMinutes
        updatedAt := now }
      (store.map (fun s => if s.id == id then r2 else s), .ok r2)

/-- `DELETE /api/recipes/[id]`: numeric ids are rejected up front;
otherwise the row owned by the caller is deleted. -/
def deleteRecipe (store : List StoredRecipe) (uid id : String) :
    List StoredRecipe × Except ApiError Unit :=
  if isNumericId id then
    (store, .error (.accessDenied "Cannot delete external recipes"))
  else
    match store.find? (fun r => r.id == id && r.userId == uid) with
    | none => (store, .error (.notFound "Recipe not found or access denied"))
    | some _ => (store.filter (fun r => !(r.id == id)), .ok ())

/-- **C9.** An external-origin recipe (numeric external id) is never owned
and never mutable through this core: the unified view built for it has a
null owning-user reference (and null group), and the edit and delete
operations always fail up front with an access error, returning the store
unchanged. -/
theorem external_recipe_never_owned_or_mutable :
    (∀ (extFetch : String → Except SpoonError SpoonInfo) (id : String)
      (fav : Bool) (r : SpoonInfo), extFetch id = .ok r →
        Except.map (fun v => (v.userId, v.familyGroupId))
          (getSpoonacularRecipe extFetch id fav) = .ok (none, none)) ∧
    (∀ (store : List StoredRecipe) (uid id : String) (body : RecipeUpdate)
      (now : Nat), isNumericId id = true →
        putRecipe store uid id body now =
          (store, .error (.accessDenied "Cannot edit external recipes"))) ∧
    (∀ (store : List StoredRecipe) (uid id : String),
      isNumericId id = true →
        deleteRecipe store uid id =
          (store, .error (.accessDenied "Cannot delete external recipes"))) := by
  refine ⟨?_, ?_, ?_⟩
  · intro extFetch id fav r h
    simp [getSpoonacularRecipe, h, spoonRecipeView, Except.map]
  · intro store uid id body now h
    simp [putRecipe, h]
  · intro store uid id h
    simp [deleteRecipe, h]

/-- Witness for C9: edit of the concrete external id `715538` fails with
the access error and leaves the store unchanged. -/
theorem external_recipe_never_owned_or_mutable_witness :
    putRecipe [] "u1" "715538" ⟨none, none, none⟩ 3 =
      ([], .error (.accessDenied "Cannot edit external recipes")) :=
  external_recipe_never_owned_or_mutable.2.1 [] "u1" "715538"
    ⟨none, none, none⟩ 3 (by decide)

end RecipeUp
